import Mathlib

/-!
Verification of the Arena polling-orchestration backend
(`src/backend/src/arena.ts`, `store.ts`, `github.ts`) against its
natural-language specification.

The TypeScript source is shallowly embedded: statuses become closed
inductive types, the in-memory store records become structures, each
external input observed during one poll tick (the remote run state, the
deployment-monitor outcome, the resolver results, the clock) is gathered
in an observation structure, and every stateful handler becomes a pure
function from the old state and the observation to the new state.
JavaScript string truthiness (null and the empty string are falsy) is
modelled explicitly wherever the source branches on a string.
-/

namespace Arena

/-- Agent lifecycle status, from `store.ts` (`AgentStatus`). -/
inductive AgentStatus where
  | initializing
  | developing
  | pushing
  | deploying
  | ready
  | deployment_failed
  | failed
deriving DecidableEq, Repr

/-- Job lifecycle status, from `store.ts` (`JobStatus`). -/
inductive JobStatus where
  | processing
  | review_needed
  | completed
deriving DecidableEq, Repr

/-- Verification outcome record, from `store.ts` (`stagehandVerify` field type). -/
structure StagehandVerify where
  passed : Bool
  reason : String
deriving DecidableEq, Repr

/-- Deployment-tracking metadata, from `store.ts` (`Agent.deploymentStatus`). -/
structure DeploymentInfo where
  workflowRunId : Option String
  deploymentId : Option String
  lastCheckedAt : Option String
deriving DecidableEq, Repr

/-- Agent record, from `store.ts` (`Agent`). Nullable fields are `Option`. -/
structure Agent where
  id : String
  runId : String
  status : AgentStatus
  terminalLogs : List String
  deploymentUrl : Option String
  deploymentDetailsUrl : Option String
  sessionLink : Option String
  stagehandVerify : Option StagehandVerify
  branchName : String
  modelId : Option String
  deploymentStatus : Option DeploymentInfo
deriving DecidableEq, Repr

/-- Job record, from `store.ts` (`Job`). -/
structure Job where
  id : String
  issueId : Int
  repoName : String
  status : JobStatus
  createdAt : String
  issueTitle : String
  issueDescription : String
  agents : List Agent
  githubRepoOwner : Option String
  githubRepoName : Option String
deriving DecidableEq, Repr

/-- Per-job monitoring bookkeeping, from `arena.ts` (`monitoredJobs` map values).
Times are milliseconds since the epoch, as returned by `Date.now()`. -/
structure Meta where
  runIds : List String
  startedAt : Nat
  lastFinisherAt : Nat
deriving DecidableEq, Repr

/-- JavaScript truthiness of a nullable string: `null` and `""` are falsy. -/
def optTruthy : Option String → Bool
  | some u => u ≠ ""
  | none => false

/-- Whether the char list `pre` is an initial segment of `l`. -/
def leadsWith : List Char → List Char → Bool
  | [], _ => true
  | _ :: _, [] => false
  | p :: ps, c :: cs => decide (p = c) && leadsWith ps cs

/-- Whether `sub` occurs contiguously inside `l` (JavaScript `String.includes`
on the underlying char lists). -/
def hasSub (sub : List Char) : List Char → Bool
  | [] => sub.isEmpty
  | c :: rest => leadsWith sub (c :: rest) || hasSub sub rest

/-- JavaScript `s.includes(sub)`. -/
def includesStr (s sub : String) : Bool := hasSub sub.toList s.toList

/-- JavaScript `s.startsWith(pre)`. -/
def jsStartsWith (s pre : String) : Bool := leadsWith pre.toList s.toList

/-- Constant `IDLE_TIMEOUT_MS` from `arena.ts`. -/
def IDLE_TIMEOUT_MS : Nat := 60000

/-- Constant `MAX_WAIT_MS` from `arena.ts` (30 minutes). -/
def MAX_WAIT_MS : Nat := 30 * 60 * 1000

/-- `Math.ceil(total * MAJORITY_THRESHOLD)` from `arena.ts` with
`MAJORITY_THRESHOLD = 0.5`: for a natural `total` well below 2^53 the
floating-point product `total * 0.5` is exact, so the ceiling equals
`(total + 1) / 2` in natural division. -/
def majorityCeil (total : Nat) : Nat := (total + 1) / 2

/-- `warpStateToAgentStatus` from `arena.ts`: maps the remote run state
(a string at runtime) to a local agent status; the switch falls through
to `initializing` on anything unrecognized. -/
def warpStateToAgentStatus (state : String) : AgentStatus :=
  if state = "SUCCEEDED" then .pushing
  else if state = "FAILED" ∨ state = "CANCELLED" then .failed
  else if state = "INPROGRESS" then .developing
  else if state = "QUEUED" ∨ state = "PENDING" ∨ state = "CLAIMED" then .initializing
  else .initializing

/-- Terminal agent statuses, as tested at `arena.ts` lines 189 and 233-235. -/
def isTerminal (s : AgentStatus) : Bool :=
  decide (s = .ready) || decide (s = .failed) || decide (s = .deployment_failed)

/-! ### Deployment id extraction (`arena.ts` lines 201-208)

The source extracts a deployment id with
`vercelUrl.match(/vercel\.com\/[^\/]+\/[^\/]+\/([^\/?]+)|https?:\/\/([^\/.]+)\.vercel\.app/)?.[1]`.
The regex is modelled directly: scan left to right for the first position
where either alternative matches (the left alternative tried first), and
take capture group 1 — which is unset (hence null after `?.[1]`) whenever
the second alternative is the one that matched. Each character class is
followed by a character outside the class, so greedy matching is the
unique match and no backtracking cases arise. -/

/-- Longest nonempty initial run of characters satisfying `p` (the regex
piece `[c]+` for a character class), with the rest of the input. -/
def takeClass (p : Char → Bool) (l : List Char) : Option (List Char × List Char) :=
  let t := l.takeWhile p
  if t.isEmpty then none else some (t, l.drop t.length)

/-- Drop the literal `pre` from the front of `l`, or fail. -/
def dropLit (pre : List Char) (l : List Char) : Option (List Char) :=
  if leadsWith pre l then some (l.drop pre.length) else none

/-- Left regex alternative `vercel\.com\/[^\/]+\/[^\/]+\/([^\/?]+)` at the
head of `l`: on a match, the text of capture group 1. -/
def matchDashboardAlt (l : List Char) : Option String :=
  (dropLit "vercel.com/".toList l).bind fun l1 =>
  (takeClass (fun c => decide (c ≠ '/')) l1).bind fun s1 =>
  (dropLit ['/'] s1.2).bind fun l2 =>
  (takeClass (fun c => decide (c ≠ '/')) l2).bind fun s2 =>
  (dropLit ['/'] s2.2).bind fun l3 =>
  (takeClass (fun c => decide (c ≠ '/') && decide (c ≠ '?')) l3).map fun cap =>
  String.mk cap.1

/-- Right regex alternative `https?:\/\/([^\/.]+)\.vercel\.app` at the head
of `l` (its capture is group 2, which the source never reads). -/
def matchPreviewAlt (l : List Char) : Bool :=
  (((dropLit "https://".toList l).orElse fun _ => dropLit "http://".toList l).bind fun l1 =>
  (takeClass (fun c => decide (c ≠ '/') && decide (c ≠ '.')) l1).bind fun s1 =>
  dropLit ".vercel.app".toList s1.2).isSome

/-- Scan for the leftmost match of the whole regex; `some cap` is a match
via the left alternative capturing `cap`, `some none` — wrapped as the
outer option being `some` with inner `none` — a match via the right
alternative (group 1 unset). -/
def scanDeploymentRegex : List Char → Option (Option String)
  | [] => none
  | c :: rest =>
    match matchDashboardAlt (c :: rest) with
    | some cap => some (some cap)
    | none =>
      if matchPreviewAlt (c :: rest) then some none
      else scanDeploymentRegex rest

/-- `vercelUrl.match(...)?.[1]` from `arena.ts` line 203: the capture group
1 of the first match, null when there is no match or the group is unset. -/
def extractDeploymentId (url : String) : Option String :=
  match scanDeploymentRegex url.toList with
  | some (some cap) => some cap
  | _ => none

/-- Lines 202-208 of `arena.ts`: derive the stored `deploymentUrl` from the
current details URL. The lookup against the deployment host
(`getDeploymentUrl("dpl_" + deploymentId)`) is an external call whose
result is supplied as `lookup`. -/
def finalDeploymentUrl (vercelUrl : Option String) (lookup : Option String) : Option String :=
  let deploymentId := match vercelUrl with
    | some u => extractDeploymentId u
    | none => none
  let du := if optTruthy deploymentId then lookup else none
  match du with
  | some d => if d ≠ "" && !jsStartsWith d "http" then some ("https://" ++ d) else some d
  | none => none

/-! ### One poll tick for one agent (`arena.ts` lines 122-221) -/

/-- Outcome classification returned by `monitorBranchDeployment`
(`github.ts`): the `status` field of its result. -/
inductive DeployOutcome where
  | pending
  | success
  | failure
  | notFound
deriving DecidableEq, Repr

/-- Result shape of `monitorBranchDeployment` (`github.ts` lines 312-317). -/
structure MonitorResult where
  status : DeployOutcome
  vercelUrl : Option String
  workflowRunId : Option Nat
  deploymentId : Option Nat
deriving DecidableEq, Repr

/-- The fields of the remote run record that `monitorRuns` reads
(`warp.getRun(runId)`): its state string, status message and session link. -/
structure RunObs where
  state : String
  statusMessage : Option String
  sessionLink : Option String
deriving DecidableEq, Repr

/-- Everything external that one `monitorRuns` iteration observes for one
run id: the remote run, whether a GitHub client is available, the
deployment-monitor result, the preview-resolver and deployment-url
lookups, and the clock (`Date.now()` as `now`, `toISOString()` as
`nowIso`). -/
structure TickObs where
  run : RunObs
  githubAvailable : Bool
  deployment : MonitorResult
  previewResolved : Option String
  deploymentUrlLookup : Option String
  nowIso : String
  now : Nat
deriving DecidableEq, Repr

/-- The verification record stored at `arena.ts` lines 217-220. -/
def goodVerify : StagehandVerify :=
  { passed := true, reason := "Agent completed and deployed successfully" }

/-- Intermediate values of one agent iteration: `finalStatus`, `vercelUrl`,
`deploymentInfo` and `logs` as of `arena.ts` line 186. -/
structure AgentTickValues where
  finalStatus : AgentStatus
  vercelUrl : Option String
  deploymentInfo : Option DeploymentInfo
  logs : List String
deriving DecidableEq, Repr

/-- Lines 129-184 of `arena.ts`: derive the candidate status from the run
state, merge in the deployment outcome when the run succeeded and a GitHub
client plus repository coordinates are available, and accumulate log lines. -/
def computeTick (obs : TickObs) (currentJob : Job) (agent : Agent) : AgentTickValues :=
  let warpStatus := warpStateToAgentStatus obs.run.state
  if warpStatus = .pushing ∧ obs.githubAvailable ∧
      optTruthy currentJob.githubRepoOwner ∧ optTruthy currentJob.githubRepoName then
    let info : DeploymentInfo :=
      { workflowRunId := obs.deployment.workflowRunId.map toString
        deploymentId := obs.deployment.deploymentId.map toString
        lastCheckedAt := some obs.nowIso }
    match obs.deployment.status with
    | .success =>
      let resolvedUrl : Option String :=
        match obs.deployment.vercelUrl with
        | some u => if includesStr u "vercel.com/" then some (obs.previewResolved.getD u) else some u
        | none => none
      if optTruthy resolvedUrl then
        { finalStatus := .ready, vercelUrl := resolvedUrl, deploymentInfo := some info
          logs := agent.terminalLogs ++ ["✓ Deployed to Vercel: " ++ resolvedUrl.getD ""] }
      else
        { finalStatus := .ready, vercelUrl := resolvedUrl, deploymentInfo := some info
          logs := agent.terminalLogs ++ ["✓ Deployment succeeded"] }
    | .failure =>
      { finalStatus := .deployment_failed, vercelUrl := agent.deploymentDetailsUrl
        deploymentInfo := some info
        logs := agent.terminalLogs ++ ["✗ Deployment failed"] }
    | .pending =>
      { finalStatus := .deploying, vercelUrl := agent.deploymentDetailsUrl
        deploymentInfo := some info
        logs := agent.terminalLogs ++ ["⏳ Deployment in progress..."] }
    | .notFound =>
      { finalStatus := .pushing, vercelUrl := agent.deploymentDetailsUrl
        deploymentInfo := some info
        logs := agent.terminalLogs ++ ["⏳ Waiting for code to be pushed..."] }
  else if warpStatus = .failed then
    { finalStatus := .failed, vercelUrl := agent.deploymentDetailsUrl
      deploymentInfo := agent.deploymentStatus
      logs := agent.terminalLogs ++ ["✗ Agent failed: " ++ obs.run.statusMessage.getD "Unknown error"] }
  else
    { finalStatus := warpStatus, vercelUrl := agent.deploymentDetailsUrl
      deploymentInfo := agent.deploymentStatus
      logs := agent.terminalLogs }

/-- Lines 186-221 of `arena.ts`: the agent record written by `updateAgent`
this tick, together with the change flag that feeds `anyUpdate` and the
last-finisher bookkeeping. -/
def tickAgent (obs : TickObs) (currentJob : Job) (agent : Agent) : Agent × Bool :=
  let v := computeTick obs currentJob agent
  let changed := decide (v.finalStatus ≠ agent.status) || decide (v.vercelUrl ≠ agent.deploymentDetailsUrl)
  let deploymentUrl := finalDeploymentUrl v.vercelUrl obs.deploymentUrlLookup
  ({ agent with
      status := v.finalStatus
      terminalLogs := v.logs
      sessionLink := match obs.run.sessionLink with
        | some s => some s
        | none => agent.sessionLink
      deploymentUrl := deploymentUrl
      deploymentDetailsUrl := v.vercelUrl
      deploymentStatus := v.deploymentInfo
      stagehandVerify :=
        if v.finalStatus = .ready then some goodVerify else agent.stagehandVerify },
    changed)

/-! ### One poll tick for one job (`arena.ts` lines 114-263) -/

/-- `store.ts` `updateAgent`: replace the fields of the first agent whose
`runId` matches (the store finds agents with `Array.prototype.find`). -/
def replaceFirstAgent (f : Agent → Agent) (rid : String) : List Agent → List Agent
  | [] => []
  | a :: rest => if a.runId = rid then f a :: rest else a :: replaceFirstAgent f rid rest

/-- Number of agents in a terminal status: the `finished` count of
`arena.ts` lines 233-235. -/
def countFinished (agents : List Agent) : Nat :=
  (agents.filter fun a => isTerminal a.status).length

/-- The convergence decision of `arena.ts` lines 233-258 as a pure
predicate of the agent list, the monitoring bookkeeping and the current
time: `canTransition && (finished === total || maxWaitReached ||
(majorityReached && idleTimeoutReached))`. -/
def convergeDecision (agents : List Agent) (meta : Meta) (now : Nat) : Bool :=
  let finished := countFinished agents
  let total := agents.length
  let hasReadyWithVercel := agents.any fun a =>
    decide (a.status = .ready) && optTruthy a.deploymentDetailsUrl
  let majorityReached := decide (finished ≥ majorityCeil total)
  let elapsed := now - meta.startedAt
  let idleSinceLast := now - meta.lastFinisherAt
  let maxWaitReached := decide (elapsed ≥ MAX_WAIT_MS)
  let idleTimeoutReached :=
    majorityReached && decide (meta.lastFinisherAt > 0) && decide (idleSinceLast ≥ IDLE_TIMEOUT_MS)
  let canTransition :=
    hasReadyWithVercel ||
      (decide (finished = total) &&
        agents.all fun a => decide (a.status = .failed) || decide (a.status = .deployment_failed))
  canTransition &&
    (decide (finished = total) || maxWaitReached || (majorityReached && idleTimeoutReached))

/-- One iteration of the inner `for (const runId of meta.runIds)` loop
(`arena.ts` lines 122-225) over the accumulated job, bookkeeping and
`anyUpdate` flag. A `none` observation is a failed `warp.getRun` fetch:
the catch block skips the agent. A run id with no matching agent is
likewise skipped (`if (!entry) continue`). -/
def stepRun (obsOf : String → Option TickObs) (acc : Job × Meta × Bool) (runId : String) :
    Job × Meta × Bool :=
  let (job, meta, anyUpdate) := acc
  match obsOf runId with
  | none => (job, meta, anyUpdate)
  | some obs =>
    match job.agents.find? fun a => a.runId = runId with
    | none => (job, meta, anyUpdate)
    | some agent =>
      let (agent1, changed) := tickAgent obs job agent
      let meta1 :=
        if changed && isTerminal agent1.status then
          { meta with lastFinisherAt := obs.now }
        else meta
      ({ job with agents := replaceFirstAgent (fun _ => agent1) runId job.agents },
        meta1, anyUpdate || changed)

/-- One `monitorRuns` iteration for one monitored job (`arena.ts` lines
114-262): a completed job is dropped from the monitoring set untouched;
otherwise every run id is polled, and the convergence policy runs only
when some agent changed (`if (!anyUpdate) continue`). The second component
is the surviving monitoring entry (`none` = deleted from `monitoredJobs`). -/
def tickJob (obsOf : String → Option TickObs) (now : Nat) (job : Job) (meta : Meta) :
    Job × Option Meta :=
  if job.status = .completed then (job, none)
  else
    let (job1, meta1, anyUpdate) := meta.runIds.foldl (stepRun obsOf) (job, meta, false)
    if !anyUpdate then (job1, some meta1)
    else if convergeDecision job1.agents meta1 now then
      ({ job1 with status := .review_needed }, none)
    else (job1, some meta1)

/-! ### HTTP handlers that write job state (`arena.ts` lines 460-536) -/

/-- `POST /jobs/:id/select` (`arena.ts` lines 460-472), for a job that was
found in the store: the updated job and the HTTP status code sent. The
body field `winnerAgentId` is a nullable string (falsy when absent or
empty). -/
def selectHandler (job : Job) (winnerAgentId : Option String) : Job × Nat :=
  if !optTruthy winnerAgentId then (job, 400)
  else if job.agents.any fun a => decide (a.id = winnerAgentId.getD "") then
    ({ job with status := .completed }, 200)
  else (job, 400)

/-- `POST /jobs/:id/create-prs` (`arena.ts` lines 474-536), for a job that
was found in the store. External effects are abstracted to two booleans:
whether a GitHub client could be initialized and whether every
`createPullRequest` call succeeded; the job status is written to
`completed` only after all PRs are created. -/
def createPrsHandler (job : Job) (agentIds : Option (List String)) (githubOk : Bool)
    (prsSucceed : Bool) : Job × Nat :=
  match agentIds with
  | none => (job, 400)
  | some ids =>
    if ids.isEmpty then (job, 400)
    else if !(optTruthy job.githubRepoOwner && optTruthy job.githubRepoName) then (job, 400)
    else
      let readyAgents := job.agents.filter fun a =>
        decide (a.status = .ready) && ids.contains a.id
      if readyAgents.length ≠ ids.length then (job, 400)
      else if !githubOk then (job, 503)
      else if prsSucceed then ({ job with status := .completed }, 200)
      else (job, 502)

/-- One atomic step on a monitored job: an orchestrator tick or one of the
two job-status-writing HTTP handlers. The monitoring entry is carried
along; a tick on a job already dropped from monitoring is a no-op. -/
inductive ArenaStep where
  | tick (obsOf : String → Option TickObs) (now : Nat)
  | select (winnerAgentId : Option String)
  | createPrs (agentIds : Option (List String)) (githubOk : Bool) (prsSucceed : Bool)

/-- Apply one step to the (job, monitoring entry) pair. -/
def applyStep (s : ArenaStep) : Job × Option Meta → Job × Option Meta
  | (job, m) =>
    match s with
    | .tick obsOf now =>
      match m with
      | some meta => tickJob obsOf now job meta
      | none => (job, none)
    | .select wid => ((selectHandler job wid).1, m)
    | .createPrs ids gh ok => ((createPrsHandler job ids gh ok).1, m)

/-- Apply a sequence of steps, first element first. -/
def runSteps (steps : List ArenaStep) (s : Job × Option Meta) : Job × Option Meta :=
  steps.foldl (fun st p => applyStep p st) s

/-- Forward order on job statuses: `processing → review_needed → completed`. -/
def JobStatus.rank : JobStatus → Nat
  | .processing => 0
  | .review_needed => 1
  | .completed => 2

/-! ### Job creation (`store.ts` `createJob`, `arena.ts` `createJobAndSpawnAgents`) -/

/-- Agent label by spawn ordinal (`store.ts` line 69). -/
def agentLabel (i : Nat) : String :=
  "agent_" ++ (match i with
    | 0 => "alpha"
    | 1 => "beta"
    | 2 => "gamma"
    | 3 => "delta"
    | 4 => "epsilon"
    | _ => "run_" ++ toString i)

/-- One freshly created agent record (`store.ts` lines 68-80). -/
def mkInitialAgent (runId : String) (i : Nat) (sessionLink : Option String)
    (branchName : String) (modelId : Option String) : Agent :=
  { id := agentLabel i
    runId := runId
    status := .initializing
    terminalLogs := ["Agent started...", "Connecting to Warp..."]
    deploymentUrl := none
    deploymentDetailsUrl := none
    sessionLink := sessionLink
    stagehandVerify := none
    branchName := branchName
    modelId := modelId
    deploymentStatus := none }

/-! ### GitHub deployment monitoring (`github.ts`) -/

/-- One deployment status record as returned by
`listDeploymentStatuses` (`github.ts` line 212): the fields the monitor
reads, with `created_at` possibly absent. -/
structure StatusRecord where
  state : String
  environment_url : Option String
  log_url : Option String
  created_at : Option String
deriving DecidableEq, Repr

/-- Result shape of `getDeploymentStatus` (`github.ts` lines 82-86). -/
structure DeploymentStatusResult where
  state : String
  environment_url : Option String
  log_url : Option String
deriving DecidableEq, Repr

/-- The reduce step at `github.ts` lines 213-215: keep `b` when its
creation timestamp (missing compared as `""`) is strictly greater. -/
def laterStatus (a b : StatusRecord) : StatusRecord :=
  if a.created_at.getD "" < b.created_at.getD "" then b else a

/-- `getDeploymentStatus` (`github.ts` lines 196-225) on the record list
the API returned: `null` for an empty list, otherwise the record with the
greatest `created_at` (JavaScript `reduce` without an initial value starts
from the first element). -/
def getDeploymentStatus (data : List StatusRecord) : Option DeploymentStatusResult :=
  match data with
  | [] => none
  | h :: t =>
    let latest := t.foldl laterStatus h
    some { state := latest.state
           environment_url := latest.environment_url
           log_url := latest.log_url }

/-- One commit status check as read by `getVercelUrlFromCommitStatus`
(`github.ts` lines 286-295): its context and target URL. -/
structure CommitStatus where
  context : Option String
  target_url : Option String
deriving DecidableEq, Repr

/-- Loop body of `getVercelUrlFromCommitStatus` (`github.ts` lines
285-296), with `acc` the `vercelComUrl` variable: skip statuses without a
qualifying URL, return the first direct deployment URL
(`*.vercel.app` / `*.vercel.sh`) immediately, and otherwise remember the
first dashboard URL. -/
def vercelUrlScan : List CommitStatus → Option String → Option String
  | [], acc => acc
  | st :: rest, acc =>
    let ctx := (st.context.getD "").toLower
    match st.target_url with
    | none => vercelUrlScan rest acc
    | some url =>
      if url = "" then vercelUrlScan rest acc
      else if !(includesStr ctx "vercel" || includesStr ctx "preview" ||
            includesStr url "vercel.app" || includesStr url "vercel.sh") then
        vercelUrlScan rest acc
      else if includesStr url "vercel.app" || includesStr url "vercel.sh" then some url
      else vercelUrlScan rest (some (acc.getD url))

/-- `getVercelUrlFromCommitStatus` (`github.ts` lines 273-301). -/
def getVercelUrlFromCommitStatus (statuses : List CommitStatus) : Option String :=
  vercelUrlScan statuses none

/-- One workflow run as read by `monitorBranchDeployment` (`github.ts`
lines 115-117). -/
structure WorkflowRun where
  id : Nat
  status : Option String
  conclusion : Option String
  head_sha : Option String
deriving DecidableEq, Repr

/-- One deployment record as read by `monitorBranchDeployment`
(`github.ts` lines 75-80; the monitor only uses `id`). -/
structure Deployment where
  id : Nat
  environment : String
deriving DecidableEq, Repr

/-- Everything external that one `monitorBranchDeployment` call observes:
branch existence, the branch head SHA (null when the lookup failed), the
workflow runs and deployments the API returned for each query, the status
records of the latest deployment, and the combined commit statuses for
each of the two refs the function may probe. -/
structure GhObs where
  branchExists : Bool
  branchHeadSha : Option String
  workflowRuns : List WorkflowRun
  deploymentsForBranch : List Deployment
  deploymentsForSha : List Deployment
  statusRecords : List StatusRecord
  commitStatusesForHeadSha : List CommitStatus
  commitStatusesForRunRef : List CommitStatus
deriving Repr

/-- `monitorBranchDeployment` (`github.ts` lines 307-446) as a pure
function of its observations, reproducing the fallback chain: missing
branch → not_found; a found deployment record is judged by its most
recent status; with no deployment record the latest workflow run decides,
and with neither, the head commit statuses are probed for a Vercel URL
before giving up. -/
def monitorBranchDeployment (o : GhObs) : MonitorResult :=
  if !o.branchExists then
    { status := .notFound, vercelUrl := none, workflowRunId := none, deploymentId := none }
  else
    let latestRun := o.workflowRuns.head?
    let shaToTry : Option String :=
      match latestRun with
      | some r => match r.head_sha with
        | some s => some s
        | none => o.branchHeadSha
      | none => o.branchHeadSha
    let deployments :=
      if o.deploymentsForBranch.isEmpty && optTruthy shaToTry then o.deploymentsForSha
      else o.deploymentsForBranch
    match deployments.head? with
    | none =>
      match latestRun with
      | none =>
        if optTruthy o.branchHeadSha then
          match getVercelUrlFromCommitStatus o.commitStatusesForHeadSha with
          | some url =>
            if url ≠ "" then
              { status := .success, vercelUrl := some url
                workflowRunId := none, deploymentId := none }
            else
              { status := .notFound, vercelUrl := none
                workflowRunId := none, deploymentId := none }
          | none =>
            { status := .notFound, vercelUrl := none
              workflowRunId := none, deploymentId := none }
        else
          { status := .notFound, vercelUrl := none
            workflowRunId := none, deploymentId := none }
      | some run =>
        if run.status = some "completed" ∧ run.conclusion = some "failure" then
          { status := .failure, vercelUrl := none
            workflowRunId := some run.id, deploymentId := none }
        else if run.status = some "completed" ∧ run.conclusion = some "success" then
          { status := .success
            vercelUrl := getVercelUrlFromCommitStatus o.commitStatusesForRunRef
            workflowRunId := some run.id, deploymentId := none }
        else
          { status := .pending, vercelUrl := none
            workflowRunId := some run.id, deploymentId := none }
    | some dep =>
      match getDeploymentStatus o.statusRecords with
      | none =>
        { status := .pending, vercelUrl := none
          workflowRunId := latestRun.map (·.id), deploymentId := some dep.id }
      | some ds =>
        let st : DeployOutcome :=
          if ds.state = "success" then .success
          else if ds.state = "failure" ∨ ds.state = "error" then .failure
          else .pending
        { status := st, vercelUrl := ds.environment_url
          workflowRunId := latestRun.map (·.id), deploymentId := some dep.id }

/-! ### Claim-worded predicates (for comparison with the code's decision)

`claimConvergePredicate` follows the words of claim C1; it is compared
against `convergeDecision`, which is translated from the source. -/

/-- The convergence condition exactly as claim C1 states it: canTransition
= (at least one agent has status ready) OR (all agents terminal and every
one failed/deployment_failed); converge when canTransition AND (all agents
terminal, OR elapsed ≥ 30 min, OR (terminal count ≥ ceil(total·0.5) AND
time since the last finisher ≥ 60 s)). -/
def claimConvergePredicate (agents : List Agent) (meta : Meta) (now : Nat) : Prop :=
  ((∃ a ∈ agents, a.status = .ready) ∨
    ((∀ a ∈ agents, isTerminal a.status = true) ∧
      ∀ a ∈ agents, a.status = .failed ∨ a.status = .deployment_failed)) ∧
  ((∀ a ∈ agents, isTerminal a.status = true) ∨
    now - meta.startedAt ≥ MAX_WAIT_MS ∨
    (countFinished agents ≥ majorityCeil agents.length ∧
      now - meta.lastFinisherAt ≥ IDLE_TIMEOUT_MS))

/-- The convergence condition as amended: an agent counts towards
canTransition only when it is `ready` with a truthy (non-null, non-empty)
deployment details URL, and the idle-timeout branch additionally requires
that a finisher timestamp has been recorded (`lastFinisherAt > 0`). -/
def amendedConvergePredicate (agents : List Agent) (meta : Meta) (now : Nat) : Prop :=
  ((∃ a ∈ agents, a.status = .ready ∧ optTruthy a.deploymentDetailsUrl = true) ∨
    ((∀ a ∈ agents, isTerminal a.status = true) ∧
      ∀ a ∈ agents, a.status = .failed ∨ a.status = .deployment_failed)) ∧
  ((∀ a ∈ agents, isTerminal a.status = true) ∨
    now - meta.startedAt ≥ MAX_WAIT_MS ∨
    (countFinished agents ≥ majorityCeil agents.length ∧ meta.lastFinisherAt > 0 ∧
      now - meta.lastFinisherAt ≥ IDLE_TIMEOUT_MS))

/-- Whether some commit status carries a direct deployed-host URL
(`*.vercel.app` or `*.vercel.sh`), the way claim C8 reads it. -/
def hasDirectVercelUrl (sts : List CommitStatus) : Prop :=
  ∃ st ∈ sts, ∃ u, st.target_url = some u ∧
    (includesStr u "vercel.app" = true ∨ includesStr u "vercel.sh" = true)

/-! ### Concrete inputs used by counterexamples, failing-input theorems
and witnesses -/

/-- An agent that reached `ready` through the workflow-success fallback
with no commit-status URL: its deployment details URL is null. -/
def c1CexAgent : Agent :=
  { id := "agent_alpha", runId := "r1", status := .ready, terminalLogs := []
    deploymentUrl := none, deploymentDetailsUrl := none, sessionLink := none
    stagehandVerify := none, branchName := "arena-j1-1", modelId := none
    deploymentStatus := none }

/-- A job shell with GitHub repository coordinates configured. -/
def repoJob : Job :=
  { id := "j1", issueId := 1, repoName := "o/r", status := .processing, createdAt := "c"
    issueTitle := "t", issueDescription := "d", agents := []
    githubRepoOwner := some "o", githubRepoName := some "r" }

/-- Observation: run still succeeded, but the deployment monitor now
reports `pending` (for example a fresh deployment record appeared). -/
def pendingAgainObs : TickObs :=
  { run := { state := "SUCCEEDED", statusMessage := none, sessionLink := none }
    githubAvailable := true
    deployment := { status := .pending, vercelUrl := none, workflowRunId := none
                    deploymentId := none }
    previewResolved := none, deploymentUrlLookup := none, nowIso := "i1", now := 50000 }

/-- An agent already stored as `ready` with a resolved preview URL. -/
def c2ReadyAgent : Agent :=
  { id := "agent_alpha", runId := "r1", status := .ready
    terminalLogs := ["✓ Deployed to Vercel: https://a.vercel.app"]
    deploymentUrl := none, deploymentDetailsUrl := some "https://a.vercel.app"
    sessionLink := none, stagehandVerify := some goodVerify
    branchName := "arena-j1-1", modelId := none, deploymentStatus := none }

/-- Observation: run succeeded and the deployment monitor reports success
with the same preview URL as before — an unchanged remote state. -/
def sameSuccessObs : TickObs :=
  { run := { state := "SUCCEEDED", statusMessage := none, sessionLink := none }
    githubAvailable := true
    deployment := { status := .success, vercelUrl := some "https://a.vercel.app"
                    workflowRunId := none, deploymentId := none }
    previewResolved := none, deploymentUrlLookup := none, nowIso := "i2", now := 60000 }

/-- An agent whose run just succeeded, before any deployment succeeded. -/
def c5PushingAgent : Agent :=
  { id := "agent_alpha", runId := "r1", status := .pushing
    terminalLogs := ["Agent started...", "Connecting to Warp..."]
    deploymentUrl := none, deploymentDetailsUrl := none, sessionLink := none
    stagehandVerify := none, branchName := "arena-j1-1", modelId := none
    deploymentStatus := none }

/-- The agent record after one tick observing `sameSuccessObs`. -/
def c5AgentAfterFirst : Agent := (tickAgent sameSuccessObs repoJob c5PushingAgent).1

/-- The agent record after a second tick observing the very same
`sameSuccessObs`. -/
def c5AgentAfterSecond : Agent := (tickAgent sameSuccessObs repoJob c5AgentAfterFirst).1

/-- The idle-timeout scenario of claim C3: a three-agent job as `createJob`
builds it, with repository coordinates configured. -/
def c3Job0 : Job :=
  { id := "j1", issueId := 1, repoName := "o/r", status := .processing, createdAt := "c"
    issueTitle := "t", issueDescription := "d"
    agents := [mkInitialAgent "r1" 0 none "arena-j1-1" none,
               mkInitialAgent "r2" 1 none "arena-j1-2" none,
               mkInitialAgent "r3" 2 none "arena-j1-3" none]
    githubRepoOwner := some "o", githubRepoName := some "r" }

/-- Monitoring entry registered at job creation (started at t = 1000 ms,
no finisher yet). -/
def c3Meta0 : Meta := { runIds := ["r1", "r2", "r3"], startedAt := 1000, lastFinisherAt := 0 }

/-- Observation of a run that succeeded and deployed to `url`. -/
def successObs (now : Nat) (url : String) : TickObs :=
  { run := { state := "SUCCEEDED", statusMessage := none, sessionLink := none }
    githubAvailable := true
    deployment := { status := .success, vercelUrl := some url, workflowRunId := none
                    deploymentId := none }
    previewResolved := none, deploymentUrlLookup := none, nowIso := "", now := now }

/-- Observation of a run still in progress. -/
def progressObs (now : Nat) : TickObs :=
  { run := { state := "INPROGRESS", statusMessage := none, sessionLink := none }
    githubAvailable := true
    deployment := { status := .notFound, vercelUrl := none, workflowRunId := none
                    deploymentId := none }
    previewResolved := none, deploymentUrlLookup := none, nowIso := "", now := now }

/-- Tick observations at t = 0 s (job time): agent A finishes `ready` with
a resolved preview, B and C still running. -/
def c3Obs1 : String → Option TickObs := fun rid =>
  if rid = "r1" then some (successObs 1000 "https://a.vercel.app")
  else if rid = "r2" then some (progressObs 1000)
  else if rid = "r3" then some (progressObs 1000)
  else none

/-- Tick observations from t = 30 s on: A and B `ready` with resolved
previews, C never leaves `developing`. -/
def c3ObsLater (now : Nat) : String → Option TickObs := fun rid =>
  if rid = "r1" then some (successObs now "https://a.vercel.app")
  else if rid = "r2" then some (successObs now "https://b.vercel.app")
  else if rid = "r3" then some (progressObs now)
  else none

/-- State after the ticks at t = 0 s, t = 30 s and t = 89 s. -/
def c3State89 : Job × Option Meta :=
  runSteps [.tick c3Obs1 1000, .tick (c3ObsLater 31000) 31000,
            .tick (c3ObsLater 90000) 90000] (c3Job0, some c3Meta0)

/-- State after the further tick at t = 91 s. -/
def c3State91 : Job × Option Meta :=
  applyStep (.tick (c3ObsLater 92000) 92000) c3State89

/-- The monitoring entry as it stands from the t = 30 s tick on. -/
def c3MetaAfter : Meta := { runIds := ["r1", "r2", "r3"], startedAt := 1000, lastFinisherAt := 31000 }

/-- A job whose single agent is still `developing` (not `ready`). -/
def c4Job : Job :=
  { id := "j1", issueId := 1, repoName := "o/r", status := .review_needed, createdAt := "c"
    issueTitle := "t", issueDescription := "d"
    agents := [{ c1CexAgent with status := .developing }]
    githubRepoOwner := some "o", githubRepoName := some "r" }

/-- Concrete observations for the C8 witness: the branch exists with a
known head SHA, there are no workflow runs and no deployment records, and
one commit status carries a direct `*.vercel.app` URL. -/
def c8WitnessObs : GhObs :=
  { branchExists := true
    branchHeadSha := some "abc123"
    workflowRuns := []
    deploymentsForBranch := []
    deploymentsForSha := []
    statusRecords := []
    commitStatusesForHeadSha := [{ context := some "Vercel", target_url := some "https://x.vercel.app" }]
    commitStatusesForRunRef := [] }

/-- The verification-record invariant of claim C10: the stored
`stagehandVerify` is either null or exactly the success record, and it is
the success record whenever the agent stands in `ready`. -/
def svInvariant (a : Agent) : Prop :=
  (a.stagehandVerify = none ∨ a.stagehandVerify = some goodVerify) ∧
  (a.status = .ready → a.stagehandVerify = some goodVerify)

/-! ## Theorems -/

/-- C9: `warpStateToAgentStatus` is total — every remote run state string
yields exactly one local stage (it is a Lean function), mapping
QUEUED/PENDING/CLAIMED to initializing, INPROGRESS to developing,
SUCCEEDED to pushing, FAILED and CANCELLED to failed, and any
unrecognized string to initializing. -/
theorem C9_status_mapper_total (state : String) :
    ((state = "QUEUED" ∨ state = "PENDING" ∨ state = "CLAIMED") →
      warpStateToAgentStatus state = .initializing) ∧
    (state = "INPROGRESS" → warpStateToAgentStatus state = .developing) ∧
    (state = "SUCCEEDED" → warpStateToAgentStatus state = .pushing) ∧
    ((state = "FAILED" ∨ state = "CANCELLED") → warpStateToAgentStatus state = .failed) ∧
    (state ∉ ["QUEUED", "PENDING", "CLAIMED", "INPROGRESS", "SUCCEEDED",
        "FAILED", "CANCELLED"] →
      warpStateToAgentStatus state = .initializing) := by
  refine ⟨?_, ?_, ?_, ?_, ?_⟩ <;> intro h
  · rcases h with h | h | h <;> subst h <;> rfl
  · subst h; rfl
  · subst h; rfl
  · rcases h with h | h <;> subst h <;> rfl
  · simp only [List.mem_cons, List.not_mem_nil, or_false, not_or] at h
    obtain ⟨h1, h2, h3, h4, h5, h6, h7⟩ := h
    simp [warpStateToAgentStatus, h1, h2, h3, h4, h5, h6, h7]

/-- C4 (failing input): the select handler completes a job whose selected
agent is `developing`, not `ready` — no ready-state validation happens.
The claim (and the spec) say such a selection must be rejected with the
job status unchanged. -/
theorem C4_select_completes_non_ready_agent :
    (c4Job.agents.map Agent.status = [.developing]) ∧
    selectHandler c4Job (some "agent_alpha") = ({ c4Job with status := .completed }, 200) := by
  constructor
  · rfl
  · rfl

/-- C5 (failing input): re-polling an agent with an observation identical
to the one the previous tick saw (run still SUCCEEDED, deployment still
success with the same URL) does not leave the stored record identical: the
status and URLs are unchanged and no change is flagged, but the tick
appends a duplicate `Deployed to Vercel` log line. -/
theorem C5_repoll_appends_duplicate_log :
    (tickAgent sameSuccessObs repoJob c5AgentAfterFirst).2 = false ∧
    c5AgentAfterSecond.status = c5AgentAfterFirst.status ∧
    c5AgentAfterSecond.deploymentDetailsUrl = c5AgentAfterFirst.deploymentDetailsUrl ∧
    c5AgentAfterSecond.terminalLogs =
      c5AgentAfterFirst.terminalLogs ++ ["✓ Deployed to Vercel: https://a.vercel.app"] ∧
    c5AgentAfterFirst.terminalLogs.getLast? = some "✓ Deployed to Vercel: https://a.vercel.app" ∧
    c5AgentAfterSecond ≠ c5AgentAfterFirst := by
  refine ⟨rfl, rfl, rfl, rfl, rfl, ?_⟩
  decide

/-- C2 (counterexample): an agent stored in the terminal status `ready` is
moved back to the non-terminal `deploying` by a poll tick whose deployment
monitor reports `pending`, so a subsequent poll tick can change a terminal
status. -/
theorem C2_claim_counterexample :
    isTerminal c2ReadyAgent.status = true ∧
    (tickAgent pendingAgainObs repoJob c2ReadyAgent).1.status = .deploying ∧
    (tickAgent pendingAgainObs repoJob c2ReadyAgent).1.status ≠ c2ReadyAgent.status := by
  refine ⟨rfl, rfl, ?_⟩
  decide

/-- C1 (counterexample): with a single agent that is `ready` but has a
null deployment details URL (reachable via the workflow-success fallback
with no commit-status URL), the claim's predicate holds — a ready agent
exists and all agents are terminal — yet the code does not converge,
because `hasReadyWithVercel` demands a truthy deployment details URL. -/
theorem C1_claim_counterexample :
    claimConvergePredicate [c1CexAgent] { runIds := [], startedAt := 0, lastFinisherAt := 5 } 10 ∧
    convergeDecision [c1CexAgent] { runIds := [], startedAt := 0, lastFinisherAt := 5 } 10 = false := by
  constructor
  · exact ⟨Or.inl ⟨c1CexAgent, by simp, rfl⟩, Or.inl (by decide)⟩
  · decide

/-- C3 (failing input): in the spec's idle-timeout scenario the job is
still `processing` at the t = 89 s tick, as the claim says — but the
t = 91 s tick also leaves it `processing` and still monitored, even though
the convergence policy itself (majority reached, a ready agent with a
preview, idle ≥ 60 s since the last finisher) evaluates to true at that
moment: `monitorRuns` only evaluates the policy when some agent changed
this tick (`if (!anyUpdate) continue`), and agents A, B, C are all
unchanged from t = 30 s on. -/
theorem C3_idle_timeout_never_fires :
    c3State89.1.status = .processing ∧
    c3State89.2 = some c3MetaAfter ∧
    c3State91.1.status = .processing ∧
    c3State91.2 = some c3MetaAfter ∧
    convergeDecision c3State89.1.agents c3MetaAfter 92000 = true := by
  refine ⟨rfl, by decide, rfl, by decide, by decide⟩

/-- The status an agent holds after a tick depends only on the observation
and the job's repository configuration, never on the stored agent record. -/
theorem tickAgent_status_agent_blind (obs : TickObs) (job : Job) (a b : Agent) :
    (tickAgent obs job a).1.status = (tickAgent obs job b).1.status := by
  show (computeTick obs job a).finalStatus = (computeTick obs job b).finalStatus
  unfold computeTick
  dsimp only
  split_ifs <;> first
    | rfl
    | (cases obs.deployment.status <;> rfl)

/-- C2 (amended): a terminal status persists across any further poll tick
that observes the same remote run state and the same deployment outcome:
re-running a tick with an unchanged observation reproduces the same
status, because the merged status is a function of the observation alone. -/
theorem C2_amended_terminal_stable_under_same_observation (obs : TickObs) (job : Job)
    (a : Agent) (_h : isTerminal ((tickAgent obs job a).1.status) = true) :
    (tickAgent obs job ((tickAgent obs job a).1)).1.status = (tickAgent obs job a).1.status := by
  exact tickAgent_status_agent_blind obs job ((tickAgent obs job a).1) a

/-- Witness for the amended C2: a concrete ready agent re-polled with the
same success observation keeps status `ready`. -/
theorem C2_amended_witness :
    isTerminal ((tickAgent sameSuccessObs repoJob c5PushingAgent).1.status) = true ∧
    (tickAgent sameSuccessObs repoJob
        ((tickAgent sameSuccessObs repoJob c5PushingAgent).1)).1.status =
      (tickAgent sameSuccessObs repoJob c5PushingAgent).1.status := by
  exact ⟨rfl, C2_amended_terminal_stable_under_same_observation sameSuccessObs repoJob
    c5PushingAgent rfl⟩

/-- The verification record written by a tick: the success record when the
merged status is `ready`, the previously stored record otherwise. -/
theorem tickAgent_stagehand (obs : TickObs) (job : Job) (a : Agent) :
    (tickAgent obs job a).1.stagehandVerify =
      if (tickAgent obs job a).1.status = .ready then some goodVerify
      else a.stagehandVerify := rfl

/-- One tick preserves the verification-record invariant. -/
theorem tick_preserves_svInvariant (obs : TickObs) (job : Job) (a : Agent)
    (h : svInvariant a) : svInvariant (tickAgent obs job a).1 := by
  constructor
  · rw [tickAgent_stagehand]
    split_ifs with hr
    · right; rfl
    · exact h.1
  · intro hr
    rw [tickAgent_stagehand, if_pos hr]

/-- The invariant propagates along any sequence of ticks. -/
theorem foldl_tick_svInvariant (ticks : List (TickObs × Job)) (a0 : Agent)
    (h : svInvariant a0) :
    svInvariant (ticks.foldl (fun a p => (tickAgent p.1 p.2 a).1) a0) := by
  induction ticks generalizing a0 with
  | nil => exact h
  | cons p ticks ih =>
    rw [List.foldl_cons]
    exact ih _ (tick_preserves_svInvariant p.1 p.2 a0 h)

/-- C10: for every agent, the verification record is either null or
exactly the success record (`passed = true`, reason "Agent completed and
deployed successfully"): a freshly created agent carries null, every
sequence of poll ticks preserves this and forces the success record
whenever the merged status is `ready`, a tick whose merged status is not
`ready` leaves the record untouched, and the winner-selection and
create-PRs handlers never modify any agent record. -/
theorem C10_stagehand_verify_only_success_record :
    (∀ (ticks : List (TickObs × Job)) (runId : String) (i : Nat)
        (sessionLink : Option String) (branchName : String) (modelId : Option String),
      svInvariant (ticks.foldl (fun a p => (tickAgent p.1 p.2 a).1)
        (mkInitialAgent runId i sessionLink branchName modelId))) ∧
    (∀ (obs : TickObs) (job : Job) (a : Agent),
      ((tickAgent obs job a).1.status = .ready →
        (tickAgent obs job a).1.stagehandVerify = some goodVerify) ∧
      ((tickAgent obs job a).1.status ≠ .ready →
        (tickAgent obs job a).1.stagehandVerify = a.stagehandVerify)) ∧
    (∀ (job : Job) (wid : Option String) (ids : Option (List String)) (gh ok : Bool),
      (selectHandler job wid).1.agents = job.agents ∧
      (createPrsHandler job ids gh ok).1.agents = job.agents) := by
  refine ⟨?_, ?_, ?_⟩
  · intro ticks runId i sessionLink branchName modelId
    refine foldl_tick_svInvariant ticks _ ⟨Or.inl rfl, ?_⟩
    intro h
    simp [mkInitialAgent] at h
  · intro obs job a
    constructor
    · intro hr; rw [tickAgent_stagehand, if_pos hr]
    · intro hr; rw [tickAgent_stagehand, if_neg hr]
  · intro job wid ids gh ok
    constructor
    · unfold selectHandler
      split_ifs <;> rfl
    · unfold createPrsHandler
      cases ids with
      | none => rfl
      | some l =>
        dsimp only
        split_ifs <;> rfl

/-- Every job status ranks at or below `completed`. -/
theorem rank_le_completed (s : JobStatus) : JobStatus.rank s ≤ JobStatus.rank .completed := by
  cases s <;> decide

/-- The inner per-run loop of a tick never touches the job status. -/
theorem foldl_stepRun_status (obsOf : String → Option TickObs) (rids : List String)
    (acc : Job × Meta × Bool) :
    ((rids.foldl (stepRun obsOf) acc).1).status = acc.1.status := by
  induction rids generalizing acc with
  | nil => rfl
  | cons r rids ih =>
    rw [List.foldl_cons, ih]
    obtain ⟨job, meta, b⟩ := acc
    show (stepRun obsOf (job, meta, b) r).1.status = job.status
    unfold stepRun
    dsimp only
    cases obsOf r with
    | none => rfl
    | some obs =>
      dsimp only
      cases List.find? (fun a => decide (a.runId = r)) job.agents with
      | none => rfl
      | some agent => rfl

/-- One step (tick, select or create-prs) never decreases the job status. -/
theorem applyStep_rank_le (s : ArenaStep) (st : Job × Option Meta) :
    JobStatus.rank st.1.status ≤ JobStatus.rank (applyStep s st).1.status := by
  obtain ⟨job, m⟩ := st
  cases s with
  | tick obsOf now =>
    cases m with
    | none => exact le_refl _
    | some meta =>
      show JobStatus.rank job.status ≤ JobStatus.rank (tickJob obsOf now job meta).1.status
      unfold tickJob
      by_cases hc : job.status = .completed
      · rw [if_pos hc]
      · rw [if_neg hc]
        rcases hE : meta.runIds.foldl (stepRun obsOf) (job, meta, false) with ⟨job1, meta1, anyU⟩
        have hst : job1.status = job.status := by
          have := foldl_stepRun_status obsOf meta.runIds (job, meta, false)
          rw [hE] at this
          exact this
        dsimp only
        split_ifs
        · rw [hst]
        · show JobStatus.rank job.status ≤ JobStatus.rank .review_needed
          cases h : job.status with
          | processing => decide
          | review_needed => decide
          | completed => exact absurd h hc
        · rw [hst]
  | select wid =>
    show JobStatus.rank job.status ≤ JobStatus.rank (selectHandler job wid).1.status
    unfold selectHandler
    split_ifs
    · exact le_refl _
    · exact rank_le_completed _
    · exact le_refl _
  | createPrs ids gh ok =>
    show JobStatus.rank job.status ≤ JobStatus.rank (createPrsHandler job ids gh ok).1.status
    unfold createPrsHandler
    cases ids with
    | none => exact le_refl _
    | some l =>
      dsimp only
      split_ifs
      all_goals first
        | exact le_refl _
        | exact rank_le_completed _

/-- C6: the job status moves only forward along
processing → review_needed → completed: under every sequence of
orchestrator ticks and HTTP handler steps the status rank never
decreases; in particular a completed job never returns to
`review_needed` or `processing`. -/
theorem C6_job_status_monotone (steps : List ArenaStep) (job : Job) (m : Option Meta) :
    JobStatus.rank job.status ≤ JobStatus.rank (runSteps steps (job, m)).1.status := by
  induction steps generalizing job m with
  | nil => exact le_refl _
  | cons s steps ih =>
    have h1 := applyStep_rank_le s (job, m)
    rcases hE : applyStep s (job, m) with ⟨j1, m1⟩
    rw [hE] at h1
    have h2 := ih j1 m1
    have hrun : runSteps (s :: steps) (job, m) = runSteps steps (j1, m1) := by
      show runSteps steps (applyStep s (job, m)) = _
      rw [hE]
    rw [hrun]
    exact le_trans h1 h2

/-- The reduce step returns one of its two arguments. -/
theorem laterStatus_eq_or (a b : StatusRecord) :
    laterStatus a b = a ∨ laterStatus a b = b := by
  unfold laterStatus
  split_ifs
  · right; rfl
  · left; rfl

/-- Both arguments bound the reduce step's creation timestamp. -/
theorem laterStatus_bounds (a b : StatusRecord) :
    a.created_at.getD "" ≤ (laterStatus a b).created_at.getD "" ∧
    b.created_at.getD "" ≤ (laterStatus a b).created_at.getD "" := by
  unfold laterStatus
  split_ifs with h
  · exact ⟨le_of_lt h, le_refl _⟩
  · exact ⟨le_refl _, le_of_not_lt h⟩

/-- The folded reduce result is the start element or a list element. -/
theorem foldl_laterStatus_mem (t : List StatusRecord) (a : StatusRecord) :
    t.foldl laterStatus a = a ∨ t.foldl laterStatus a ∈ t := by
  induction t generalizing a with
  | nil => left; rfl
  | cons b t ih =>
    rw [List.foldl_cons]
    rcases ih (laterStatus a b) with h | h
    · rcases laterStatus_eq_or a b with h2 | h2
      · left; rw [h, h2]
      · right; rw [h, h2]; exact List.mem_cons_self _ _
    · right; exact List.mem_cons_of_mem _ h

/-- The folded reduce result bounds the start element and every list
element by creation timestamp. -/
theorem foldl_laterStatus_bounds (t : List StatusRecord) (a : StatusRecord) :
    a.created_at.getD "" ≤ (t.foldl laterStatus a).created_at.getD "" ∧
    ∀ s ∈ t, s.created_at.getD "" ≤ (t.foldl laterStatus a).created_at.getD "" := by
  induction t generalizing a with
  | nil => exact ⟨le_refl _, by simp⟩
  | cons b t ih =>
    rw [List.foldl_cons]
    obtain ⟨h1, h2⟩ := ih (laterStatus a b)
    refine ⟨le_trans (laterStatus_bounds a b).1 h1, ?_⟩
    intro s hs
    rcases List.mem_cons.mp hs with rfl | hs
    · exact le_trans (laterStatus_bounds a s).2 h1
    · exact h2 s hs

/-- C7: among a deployment's status records, the monitor returns the
record whose creation timestamp is the maximum over all returned records
(missing timestamps compare as the empty string) — a property of the
multiset of records, hence independent of their ordering — and an empty
record list yields an absent result. -/
theorem C7_deployment_status_picks_latest (data : List StatusRecord) :
    (data = [] → getDeploymentStatus data = none) ∧
    (data ≠ [] → ∃ r ∈ data,
      getDeploymentStatus data =
        some { state := r.state, environment_url := r.environment_url, log_url := r.log_url } ∧
      ∀ s ∈ data, s.created_at.getD "" ≤ r.created_at.getD "") := by
  constructor
  · rintro rfl; rfl
  · intro h
    match data with
    | [] => exact absurd rfl h
    | a :: t =>
      refine ⟨t.foldl laterStatus a, ?_, rfl, ?_⟩
      · rcases foldl_laterStatus_mem t a with h1 | h1
        · rw [h1]; exact List.mem_cons_self _ _
        · exact List.mem_cons_of_mem _ h1
      · intro s hs
        obtain ⟨h1, h2⟩ := foldl_laterStatus_bounds t a
        rcases List.mem_cons.mp hs with rfl | hs
        · exact h1
        · exact h2 s hs

/-- When some status carries a direct deployed-host URL, the scan returns
a URL; the returned URL is nonempty and comes from one of the statuses. -/
theorem vercelUrlScan_finds_direct (sts : List CommitStatus)
    (h : hasDirectVercelUrl sts) :
    ∀ acc : Option String, ∃ u, vercelUrlScan sts acc = some u ∧ u ≠ "" ∧
      ∃ st ∈ sts, st.target_url = some u := by
  induction sts with
  | nil => simp [hasDirectVercelUrl] at h
  | cons st rest ih =>
    intro acc
    by_cases hd : ∃ u, st.target_url = some u ∧
        (includesStr u "vercel.app" = true ∨ includesStr u "vercel.sh" = true)
    · obtain ⟨u, hu, hdir⟩ := hd
      have hne : u ≠ "" := by
        intro he
        subst he
        rcases hdir with hh | hh
        · exact absurd hh (by decide)
        · exact absurd hh (by decide)
      refine ⟨u, ?_, hne, st, List.mem_cons_self _ _, hu⟩
      rcases hdir with hh | hh <;>
        simp [vercelUrlScan, hu, hne, hh]
    · have hrest : hasDirectVercelUrl rest := by
        obtain ⟨st1, hmem, u, hu, hdir⟩ := h
        rcases List.mem_cons.mp hmem with rfl | hmem
        · exact absurd ⟨u, hu, hdir⟩ hd
        · exact ⟨st1, hmem, u, hu, hdir⟩
      have step : ∀ acc1 : Option String, ∃ acc2, vercelUrlScan (st :: rest) acc1 = vercelUrlScan rest acc2 := by
        intro acc1
        cases hT : st.target_url with
        | none => exact ⟨acc1, by simp [vercelUrlScan, hT]⟩
        | some url =>
          by_cases he : url = ""
          · subst he
            exact ⟨acc1, by simp [vercelUrlScan, hT]⟩
          · have hda : includesStr url "vercel.app" = false := by
              by_contra hc
              exact hd ⟨url, hT, Or.inl (by simpa using hc)⟩
            have hdsh : includesStr url "vercel.sh" = false := by
              by_contra hc
              exact hd ⟨url, hT, Or.inr (by simpa using hc)⟩
            by_cases hq : (includesStr ((st.context.getD "").toLower) "vercel" ||
                includesStr ((st.context.getD "").toLower) "preview" ||
                includesStr url "vercel.app" || includesStr url "vercel.sh") = true
            · refine ⟨some (acc1.getD url), ?_⟩
              show vercelUrlScan (st :: rest) acc1 = vercelUrlScan rest (some (acc1.getD url))
              simp only [vercelUrlScan]
              rw [hT]
              dsimp only
              rw [if_neg he, hq, Bool.not_true, if_neg Bool.false_ne_true, hda, hdsh,
                Bool.or_self, if_neg Bool.false_ne_true]
            · exact ⟨acc1, by simp [vercelUrlScan, hT, he, hq]⟩
      obtain ⟨acc2, hstep⟩ := step acc
      obtain ⟨u, hsc, hne, st1, hmem, hu⟩ := ih hrest acc2
      exact ⟨u, by rw [hstep, hsc], hne, st1, List.mem_cons_of_mem _ hmem, hu⟩

/-- C8: for a branch that exists (with a resolvable, truthy head SHA) but
has no workflow runs and no deployment records, if the combined commit
statuses of the branch head contain a direct deployed-host URL
(`*.vercel.app` / `*.vercel.sh`), the monitor returns `success` carrying a
URL taken from those statuses; and whenever it returns `not_found`, no
such deployed-host URL exists among the statuses. -/
theorem C8_fallback_probes_commit_status (o : GhObs)
    (hex : o.branchExists = true)
    (hsha : optTruthy o.branchHeadSha = true)
    (hruns : o.workflowRuns = [])
    (hdb : o.deploymentsForBranch = [])
    (hds : o.deploymentsForSha = []) :
    (hasDirectVercelUrl o.commitStatusesForHeadSha →
      (monitorBranchDeployment o).status = .success ∧
      ∃ u, (monitorBranchDeployment o).vercelUrl = some u ∧
        ∃ st ∈ o.commitStatusesForHeadSha, st.target_url = some u) ∧
    ((monitorBranchDeployment o).status = .notFound →
      ¬ hasDirectVercelUrl o.commitStatusesForHeadSha) := by
  have hmain : hasDirectVercelUrl o.commitStatusesForHeadSha →
      (monitorBranchDeployment o).status = .success ∧
      ∃ u, (monitorBranchDeployment o).vercelUrl = some u ∧
        ∃ st ∈ o.commitStatusesForHeadSha, st.target_url = some u := by
    intro hd
    obtain ⟨u, hscan, hne, st, hmem, hu⟩ :=
      vercelUrlScan_finds_direct o.commitStatusesForHeadSha hd none
    have hmon : monitorBranchDeployment o =
        { status := .success, vercelUrl := some u, workflowRunId := none, deploymentId := none } := by
      unfold monitorBranchDeployment
      rw [hex, hruns, hdb, hds]
      simp only [Bool.not_true, Bool.false_eq_true, if_false, List.head?_nil,
        List.isEmpty_nil, Bool.true_and, ite_self]
      rw [hsha]
      simp only [if_true]
      unfold getVercelUrlFromCommitStatus
      rw [hscan]
      simp [hne]
    rw [hmon]
    exact ⟨rfl, u, rfl, st, hmem, hu⟩
  refine ⟨hmain, ?_⟩
  intro hnf hd
  have := (hmain hd).1
  rw [this] at hnf
  cases hnf

/-- Witness for C8: on the concrete observations — existing branch, known
head SHA, no workflow runs, no deployments, one commit status carrying
`https://x.vercel.app` — the monitor returns `success`. -/
theorem C8_fallback_witness :
    (monitorBranchDeployment c8WitnessObs).status = .success := by
  have h := C8_fallback_probes_commit_status c8WitnessObs rfl (by decide) rfl rfl rfl
  have hd : hasDirectVercelUrl c8WitnessObs.commitStatusesForHeadSha :=
    ⟨{ context := some "Vercel", target_url := some "https://x.vercel.app" },
      List.mem_cons_self _ _, "https://x.vercel.app", rfl, Or.inl (by decide)⟩
  exact (h.1 hd).1

/-- The finished count equals the agent count exactly when every agent is
terminal. -/
theorem countFinished_eq_length_iff (agents : List Agent) :
    countFinished agents = agents.length ↔ ∀ a ∈ agents, isTerminal a.status = true := by
  unfold countFinished
  constructor
  · intro h a ha
    have hf := (List.filter_sublist agents).eq_of_length h
    have hmem : a ∈ agents.filter fun a => isTerminal a.status := by
      rw [hf]
      exact ha
    exact (List.mem_filter.mp hmem).2
  · intro h
    rw [List.filter_eq_self.mpr h]

/-- C1 (amended): the orchestrator's convergence decision holds exactly
when canTransition' AND (all agents terminal, OR elapsed ≥ 30 min, OR
(terminal count ≥ ceil(total·0.5) AND a finisher timestamp is recorded AND
time since the last finisher ≥ 60 s)), where canTransition' = (at least
one agent is ready with a truthy deployment details URL) OR (all agents
terminal and every one failed/deployment_failed). -/
theorem C1_amended_convergence_iff (agents : List Agent) (meta : Meta) (now : Nat) :
    convergeDecision agents meta now = true ↔ amendedConvergePredicate agents meta now := by
  unfold convergeDecision amendedConvergePredicate
  simp only [Bool.and_eq_true, Bool.or_eq_true, List.any_eq_true, List.all_eq_true,
    decide_eq_true_eq, countFinished_eq_length_iff]
  itauto

end Arena
